import Mathlib

/-!
# Verification of the RTMP chunk-stream core (`pkg/rtmp`)

Shallow embedding of the chunk codec (`chunk_stream.go`), the connection
bookkeeping that is visible in it, and the subscriber queue/send path
(`subscriber.go`).  Byte streams are `List Nat` whose elements denote Go
`byte` values; every place the Go code relies on the `byte` type is made
explicit with `% 256`, and every 32-bit overflow with `% 2^32`.  Fallible
reads (short input, which makes the Go code return an error) are `Option`.
-/

namespace RTMP

/-- The modulus of Go `uint32` arithmetic, 2^32. -/
def U32 : Nat := 4294967296

/-- The accumulator loop of `byteSliceAsUint` (chunk_stream.go:1028-1041):
big-endian folds `ret = ret<<8 + b[i]`, little-endian accumulates
`ret += b[i] << (i*8)`, all in `uint32` arithmetic. -/
def byteSliceAsUintAux (bigEndian : Bool) : List Nat → Nat → Nat → Nat
  | [], _, ret => ret
  | x :: xs, i, ret =>
    if bigEndian then
      byteSliceAsUintAux bigEndian xs (i + 1) ((ret * 256 + x % 256) % U32)
    else
      byteSliceAsUintAux bigEndian xs (i + 1) ((ret + (x % 256 * 2 ^ (8 * i)) % U32) % U32)

/-- Go `byteSliceAsUint(b, bigEndian)` (chunk_stream.go:1028-1041). -/
def byteSliceAsUint (b : List Nat) (bigEndian : Bool) : Nat :=
  byteSliceAsUintAux bigEndian b 0 0

/-- The `nbytes`-long buffer produced by the serialization loop of
`writeUint(val, nbytes, bigEndian)` (chunk_stream.go:1008-1026):
big-endian `buf[i] = byte(val >> ((nbytes-i-1)*8))`, little-endian
`buf[i] = byte(val >> (i*8))` (the loop shifts `val` right by 8 each step). -/
def writeUintBytes (val : Nat) (nbytes : Nat) (bigEndian : Bool) : List Nat :=
  (List.range nbytes).map fun i =>
    if bigEndian then val / 2 ^ (8 * (nbytes - i - 1)) % 256
    else val / 2 ^ (8 * i) % 256

/-- Message type ids (`RtmpMsgTypeID` constants, chunk_stream.go:1043-1063). -/
def MsgSetChunkSize : Nat := 1

def MsgAcknowledgement : Nat := 3

def MsgWindowAcknowledgementSize : Nat := 5

def MsgAudioMessage : Nat := 8

def MsgVideoMessage : Nat := 9

def MsgAMF3DataMessage : Nat := 15

def MSGAMF0DataMessage : Nat := 18

/-- The per-csid reassembly slot `ChunkStream` (chunk_stream.go:463-473).
`ChunkBody` holds the filled prefix of the Go body buffer
(`make([]byte, MsgLength)` filled up to the cursor `bodyIndex`); the
zero-initialised unfilled tail carries no information and is left out. -/
structure ChunkStream where
  Fmt : Nat
  Csid : Nat
  TimeStamp : Nat
  MsgLength : Nat
  MsgTypeID : Nat
  MsgStreamID : Nat
  ExtendedTimeStamp : Nat
  msgHdrSize : Nat
  timeExtended : Bool
  gotBodyFull : Bool
  bodyIndex : Nat
  bodyRemain : Nat
  ChunkBody : List Nat
  deriving Repr, DecidableEq

/-- Go `newChunkStream()` (chunk_stream.go:475-477): the zero value. -/
def newChunkStream : ChunkStream :=
  ⟨0, 0, 0, 0, 0, 0, 0, 0, false, false, 0, 0, []⟩

/-- Go `ReadUint(n, bigEndian)` (chunk_stream.go:988-1006) reading from the
buffered stream; a short stream (the Go read error) is `none`.  Its
accumulation loop is the same fold as `byteSliceAsUint`. -/
def ReadUint (n : Nat) (bigEndian : Bool) (st : List Nat) : Option (Nat × List Nat) :=
  if n ≤ st.length then some (byteSliceAsUint (st.take n) bigEndian, st.drop n) else none

/-- Go `ChunkBasicHeader` (chunk_stream.go:445-448). -/
structure ChunkBasicHeader where
  Fmt : Nat
  Csid : Nat
  deriving Repr, DecidableEq

/-- Go `readChunkBasicHeader` (chunk_stream.go:590-617): `fmt = h >> 6`,
`csid = h & 0x3f`; raw csid 0 adds a 1-byte little-endian extension + 64,
raw csid 1 a 2-byte one + 64. -/
def readChunkBasicHeader (st : List Nat) : Option (ChunkBasicHeader × List Nat) :=
  match ReadUint 1 true st with
  | none => none
  | some (h, st) =>
    let fmt := h / 64
    let csid := h % 64
    if csid = 0 then
      match ReadUint 1 false st with
      | none => none
      | some (id, st) => some (⟨fmt, id + 64⟩, st)
    else if csid = 1 then
      match ReadUint 2 false st with
      | none => none
      | some (id, st) => some (⟨fmt, id + 64⟩, st)
    else
      some (⟨fmt, csid⟩, st)

/-- Go `readChunkMessageHeader(cs, fmt)` (chunk_stream.go:619-711).  For
`fmt ≤ 2` the header bytes are read and the slot is reset for a new
message (note the source consults the stored stale `cs.Fmt`, not the
incoming `fmt`, for the timestamp rule and does not consume extended
timestamp bytes here).  For `fmt = 3` with `bodyRemain = 0` a new message
starts reusing the stored header; with `bodyRemain > 0` (mid-message
continuation) the next 4 bytes are peeked and discarded only when their
big-endian value equals the slot's current `TimeStamp`.  Short input (a Go
read/peek error, or the error-ignoring `ReadUint` calls hitting EOF) is
modelled as `none`. -/
def readChunkMessageHeader (cs : ChunkStream) (fmt : Nat) (st : List Nat) :
    Option (ChunkStream × List Nat) :=
  let hdrSize : Nat := if fmt = 0 then 11 else if fmt = 1 then 7 else if fmt = 2 then 3 else 0
  let cs := { cs with msgHdrSize := hdrSize }
  if fmt ≤ 2 then
    if st.length < hdrSize then none
    else
      let buf := st.take hdrSize
      let st := st.drop hdrSize
      let ext := byteSliceAsUint (buf.take 3) true
      let cs := { cs with ExtendedTimeStamp := ext, timeExtended := decide (0xffffff ≤ ext) }
      let cs :=
        if cs.timeExtended then cs
        else if cs.Fmt = 0 then { cs with TimeStamp := ext }
        else if cs.Fmt = 1 ∨ cs.Fmt = 2 then { cs with TimeStamp := (cs.TimeStamp + ext) % U32 }
        else cs
      let cs :=
        if fmt ≤ 1 then
          let cs := { cs with MsgLength := byteSliceAsUint ((buf.drop 3).take 3) true,
                              MsgTypeID := byteSliceAsUint ((buf.drop 6).take 1) true }
          if fmt = 0 then { cs with MsgStreamID := byteSliceAsUint ((buf.drop 7).take 4) false }
          else cs
        else cs
      some ({ cs with gotBodyFull := false, bodyIndex := 0, bodyRemain := cs.MsgLength,
                      ChunkBody := [] }, st)
  else
    if cs.bodyRemain = 0 then
      let next : Option (Nat × List Nat) :=
        if cs.Fmt = 0 then
          if cs.timeExtended then
            match ReadUint 4 true st with
            | none => none
            | some (v, st) => some (v, st)
          else some (cs.TimeStamp, st)
        else if cs.Fmt = 1 ∨ cs.Fmt = 2 then
          if cs.timeExtended then
            match ReadUint 4 true st with
            | none => none
            | some (v, st) => some ((cs.TimeStamp + v) % U32, st)
          else some ((cs.TimeStamp + cs.ExtendedTimeStamp) % U32, st)
        else some (cs.TimeStamp, st)
      match next with
      | none => none
      | some (ts, st) =>
        some ({ cs with TimeStamp := ts, gotBodyFull := false, bodyIndex := 0,
                        bodyRemain := cs.MsgLength, ChunkBody := [] }, st)
    else
      if cs.timeExtended then
        if st.length < 4 then none
        else
          let tmpTimeStamp := byteSliceAsUint (st.take 4) true
          if tmpTimeStamp = cs.TimeStamp then some (cs, st.drop 4) else some (cs, st)
      else some (cs, st)

/-- Go `readChunkMessageBody` (chunk_stream.go:713-732): read
`min(remoteChunkSize, bodyRemain)` bytes into the body buffer, advance the
cursor, raise `gotBodyFull` when the remainder hits zero. -/
def readChunkMessageBody (remoteChunkSize : Nat) (cs : ChunkStream) (st : List Nat) :
    Option (ChunkStream × List Nat) :=
  let size := if cs.bodyRemain > remoteChunkSize then remoteChunkSize else cs.bodyRemain
  if st.length < size then none
  else
    let cs := { cs with ChunkBody := cs.ChunkBody ++ st.take size,
                        bodyIndex := cs.bodyIndex + size,
                        bodyRemain := cs.bodyRemain - size }
    let cs := if cs.bodyRemain = 0 then { cs with gotBodyFull := true } else cs
    some (cs, st.drop size)

/-- The connection fields read or written by the chunk codec
(`Conn` is declared outside src/; the two counters are 32-bit per the
spec's data model).  `chunks` is the csid → slot map; insertion prepends
and lookup takes the most recent binding. -/
structure Conn where
  chunks : List (Nat × ChunkStream)
  localChunksize : Nat
  remoteChunkSize : Nat
  remoteWindowAckSize : Nat
  bytesRecv : Nat
  bytesRecvReset : Nat
  ackSeqNumber : Nat
  deriving Repr, DecidableEq

/-- Lookup in the `c.chunks` map. -/
def findSlot (m : List (Nat × ChunkStream)) (k : Nat) : Option ChunkStream :=
  match m with
  | [] => none
  | (k2, s) :: rest => if k2 = k then some s else findSlot rest k

/-- Modelled from the spec: `putU32BE` is called by `asControlMessage` but
its definition is not under src/; the Acknowledgement chunk "carrying the
current value" in a 4-byte body forces the 4-byte big-endian store its
name denotes. -/
def putU32BE (value : Nat) : List Nat :=
  writeUintBytes value 4 true

/-- Go `asControlMessage(typeID, length, value)` (chunk_stream.go:479-489);
always called with `length = 4`, the body is the big-endian store of
`value`. -/
def asControlMessage (cs : ChunkStream) (typeID length value : Nat) : ChunkStream :=
  { cs with Fmt := 0, Csid := 2, MsgTypeID := typeID, MsgStreamID := 0,
            MsgLength := length, ChunkBody := putU32BE value }

/-- Go `ack(size)` (chunk_stream.go:796-812): add `size` to both 32-bit
counters; reset `bytesRecv` (and bump the wrap counter) when it reaches
`2^32 - 1`; when `ackSeqNumber` reaches the remote window, build an
Acknowledgement control chunk carrying it and reset it to 0.  The second
component is the chunk handed to `writeChunStream`, if any. -/
def ack (c : Conn) (size : Nat) : Conn × Option ChunkStream :=
  let bytesRecv := (c.bytesRecv + size) % U32
  let bytesRecvReset := if U32 - 1 ≤ bytesRecv then c.bytesRecvReset + 1 else c.bytesRecvReset
  let bytesRecv := if U32 - 1 ≤ bytesRecv then 0 else bytesRecv
  let ackSeqNumber := (c.ackSeqNumber + size) % U32
  if c.remoteWindowAckSize ≤ ackSeqNumber then
    ({ c with bytesRecv, bytesRecvReset, ackSeqNumber := 0 },
     some (asControlMessage newChunkStream MsgAcknowledgement 4 ackSeqNumber))
  else
    ({ c with bytesRecv, bytesRecvReset, ackSeqNumber }, none)

/-- Go `onReadChunkStreamSucc` (chunk_stream.go:782-794): SetChunkSize and
WindowAckSize messages overwrite the respective connection fields with the
raw big-endian 32-bit value of the body (`binary.BigEndian.Uint32`, which
panics — modelled `none` — on a body shorter than 4 bytes); then `ack` runs
on the message length. -/
def onReadChunkStreamSucc (c : Conn) (cs : ChunkStream) : Option (Conn × Option ChunkStream) :=
  if cs.MsgTypeID = MsgSetChunkSize then
    if 4 ≤ cs.ChunkBody.length then
      some (ack { c with remoteChunkSize := byteSliceAsUint (cs.ChunkBody.take 4) true }
        cs.MsgLength)
    else none
  else if cs.MsgTypeID = MsgWindowAcknowledgementSize then
    if 4 ≤ cs.ChunkBody.length then
      some (ack { c with remoteWindowAckSize := byteSliceAsUint (cs.ChunkBody.take 4) true }
        cs.MsgLength)
    else none
  else some (ack c cs.MsgLength)

/-- The slot-map consultation of `readChunkStream` (chunk_stream.go:541-546):
a fresh slot takes the basic header's `Fmt` and `Csid`. -/
def lookupSlot (c : Conn) (bh : ChunkBasicHeader) : ChunkStream :=
  match findSlot c.chunks bh.Csid with
  | some cs => cs
  | none => { newChunkStream with Fmt := bh.Fmt, Csid := bh.Csid }

/-- Go `readChunkStream` (chunk_stream.go:534-588): loop reading basic header,
message header and body until a slot reports `gotBodyFull`; the slot map is
consulted by csid (a fresh slot takes the basic header's `Fmt`/`Csid`).
Result: the completed message, the connection after
`onReadChunkStreamSucc`, the remaining stream, and the Acknowledgement
chunk sent (if any).  Fuel bounds the number of chunks examined. -/
def readChunkStream :
    Nat → Conn → List Nat → Option (ChunkStream × Conn × List Nat × Option ChunkStream)
  | 0, _, _ => none
  | fuel + 1, c, st =>
    match readChunkBasicHeader st with
    | none => none
    | some (bh, st) =>
      match readChunkMessageHeader (lookupSlot c bh) bh.Fmt st with
      | none => none
      | some (cs, st) =>
        match readChunkMessageBody c.remoteChunkSize cs st with
        | none => none
        | some (cs, st) =>
          let c := { c with chunks := (bh.Csid, cs) :: c.chunks }
          if cs.gotBodyFull then
            match onReadChunkStreamSucc c cs with
            | none => none
            | some (c, sent) => some (cs, c, st, sent)
          else readChunkStream fuel c st

/-- Go `writeHeader` (chunk_stream.go:937-986): basic header (1-3 bytes by
csid range; a csid beyond 65599 matches no switch case and emits nothing),
then the fmt-dependent message header with the 3-byte timestamp field
clamped to `0xffffff`, and at label END a 4-byte extended timestamp only
when the local `ts` (the clamped copy for fmt 0/1/2) still exceeds
`0xffffff`.  Result: the emitted bytes, and `false` in place of the
`MsgLength > 0xffffff` error return. -/
def writeHeader (cs : ChunkStream) : List Nat × Bool :=
  let basic : List Nat :=
    if cs.Csid < 64 then writeUintBytes (cs.Fmt * 64 + cs.Csid) 1 true
    else if cs.Csid - 64 < 256 then
      writeUintBytes (cs.Fmt * 64) 1 true ++ writeUintBytes (cs.Csid - 64) 1 false
    else if cs.Csid - 64 < 65536 then
      writeUintBytes (cs.Fmt * 64 + 1) 1 true ++ writeUintBytes (cs.Csid - 64) 2 false
    else []
  if cs.Fmt = 3 then
    (basic ++ (if 0xffffff < cs.TimeStamp then writeUintBytes cs.TimeStamp 4 true else []),
     true)
  else
    let ts := if 0xffffff < cs.TimeStamp then 0xffffff else cs.TimeStamp
    let out := basic ++ writeUintBytes ts 3 true
    if cs.Fmt = 2 then
      (out ++ (if 0xffffff < ts then writeUintBytes cs.TimeStamp 4 true else []), true)
    else if 0xffffff < cs.MsgLength then (out, false)
    else
      let out := out ++ writeUintBytes cs.MsgLength 3 true ++ writeUintBytes cs.MsgTypeID 1 true
      if cs.Fmt = 1 then
        (out ++ (if 0xffffff < ts then writeUintBytes cs.TimeStamp 4 true else []), true)
      else
        (out ++ writeUintBytes cs.MsgStreamID 4 false
             ++ (if 0xffffff < ts then writeUintBytes cs.TimeStamp 4 true else []), true)

/-- The csid reassignment at the top of `writeChunStream`
(chunk_stream.go:736-741): audio → 4, video/data → 6, others keep theirs. -/
def reassignCsid (cs : ChunkStream) : ChunkStream :=
  if cs.MsgTypeID = MsgAudioMessage then { cs with Csid := 4 }
  else if cs.MsgTypeID = MsgVideoMessage ∨ cs.MsgTypeID = MsgAMF3DataMessage ∨
      cs.MsgTypeID = MSGAMF0DataMessage then { cs with Csid := 6 }
  else cs

/-- The chunk-emission loop of `writeChunStream` (chunk_stream.go:743-777):
iteration `i` (fuel counts the remaining iterations of
`for i := 0; i <= numChunks; i++`) stops when `totalLen == MsgLength`,
emits a fmt=0 header for the first chunk and fmt=3 for continuations, then
`min(localChunksize, len(ChunkBody) - start)` body bytes.  A `writeHeader`
error aborts with `none`. -/
def writeChunStreamLoop (cz : Nat) (cs : ChunkStream) :
    Nat → Nat → Nat → List Nat → Option (List Nat)
  | 0, _, _, out => some out
  | fuel + 1, i, totalLen, out =>
    if totalLen = cs.MsgLength then some out
    else
      match writeHeader { cs with Fmt := if i = 0 then 0 else 3 } with
      | (_, false) => none
      | (hdr, true) =>
        let start := i * cz
        let leftLen := cs.ChunkBody.length - start
        let inc := if leftLen < cz then leftLen else cz
        let buf := (cs.ChunkBody.drop start).take inc
        writeChunStreamLoop cz cs fuel (i + 1) (totalLen + inc) (out ++ hdr ++ buf)

/-- Go `writeChunStream` (chunk_stream.go:735-780): reassign the csid by
message type, split the body into `MsgLength / localChunksize + 1` chunk
slots, and run the emission loop.  Result: all bytes put on the wire, or
`none` on the header-size error. -/
def writeChunStream (cz : Nat) (cs : ChunkStream) : Option (List Nat) :=
  let cs := reassignCsid cs
  writeChunStreamLoop cz cs (cs.MsgLength / cz + 1) 0 0 []

/-- Modelled from the spec: the `av.Packet` type lives in
`playground/pkg/av`, outside src/.  Per the spec's data model a packet is
tagged audio | video | metadata, carries a stream id, a millisecond
timestamp and opaque payload bytes, and a video packet's decoded header
answers `IsSeq` and `IsKeyFrame`; `hasVideoHeader` stands for the
`pkt.Header.(av.VideoPacketHeader)` type assertion succeeding. -/
structure Packet where
  IsAudio : Bool
  IsVideo : Bool
  IsMetaData : Bool
  hasVideoHeader : Bool
  IsSeq : Bool
  IsKeyFrame : Bool
  StreamID : Nat
  TimeStamp : Nat
  Data : List Nat
  deriving Repr, DecidableEq

/-- One iteration of the trim loop of `dropAvPkt` (subscriber.go:78-106):
dequeue the front packet; audio is requeued unless the queue is still
above `size-2` (then one further packet is dropped as well); video is
requeued only when it is a sequence header or key frame, and one further
packet is dropped when the queue is above `size-10`; a packet that is
neither audio nor video falls through the switch and is simply gone.
`none` models a blocking receive on an empty open channel. -/
def trimStep (size : Nat) (q : List Packet) : Option (List Packet) :=
  match q with
  | [] => none
  | pkt :: q =>
    if pkt.IsAudio then
      if size - 2 < q.length then
        match q with
        | [] => none
        | _ :: q2 => some q2
      else some (q ++ [pkt])
    else if pkt.IsVideo then
      let q1 := if pkt.hasVideoHeader ∧ (pkt.IsSeq ∨ pkt.IsKeyFrame) then q ++ [pkt] else q
      if size - 10 < q1.length then
        match q1 with
        | [] => none
        | _ :: q2 => some q2
      else some q1
    else some q

/-- The `size - 84`-iteration trim loop of `dropAvPkt`. -/
def dropAvPktLoop (size : Nat) : Nat → List Packet → Option (List Packet)
  | 0, q => some q
  | n + 1, q =>
    match trimStep size q with
    | none => none
    | some q => dropAvPktLoop size n q

/-- Go `dropAvPkt` (subscriber.go:78-106): run the trim iteration
`avPktQueueSize - 84` times. -/
def dropAvPkt (size : Nat) (q : List Packet) : Option (List Packet) :=
  dropAvPktLoop size (size - 84) q

/-- Go `avPktEnQueue` (subscriber.go:70-76): enqueue normally below the
`size - 24` watermark, otherwise enter trim mode (the arriving packet is
not enqueued there). -/
def avPktEnQueue (size : Nat) (q : List Packet) (pkt : Packet) : Option (List Packet) :=
  if size - 24 < q.length then dropAvPkt size q else some (q ++ [pkt])

/-- One iteration of `playingCycle` (subscriber.go:40-68) acting on the
reused outgoing chunk: the body, length and stream id come from the
packet, the chunk's `TimeStamp` accumulates `baseTimeStamp`
(`cs.TimeStamp += s.baseTimeStamp`, uint32), and the type id follows the
packet's tag.  The packet's own publisher `TimeStamp` is never read. -/
def playingCycleStep (baseTimeStamp : Nat) (cs : ChunkStream) (pkt : Packet) : ChunkStream :=
  { cs with
      ChunkBody := pkt.Data
      MsgLength := pkt.Data.length
      MsgStreamID := pkt.StreamID
      TimeStamp := (cs.TimeStamp + baseTimeStamp) % U32
      MsgTypeID :=
        if pkt.IsVideo then MsgVideoMessage
        else if pkt.IsAudio then MsgAudioMessage
        else if pkt.IsMetaData then MSGAMF0DataMessage
        else cs.MsgTypeID }

/-- The chunks handed to `writeChunStream` by `playingCycle` for a queue
of packets, in order.  `baseTimeStamp` is a fixed parameter: nothing in
src/ calls `recordTimeStamp`, so the field does not change during the
cycle; a fresh subscriber starts with `baseTimeStamp = 0` and
`cs = new(ChunkStream)`. -/
def playingCycleSends (baseTimeStamp : Nat) (cs : ChunkStream) : List Packet → List ChunkStream
  | [] => []
  | pkt :: pkts =>
    let cs := playingCycleStep baseTimeStamp cs pkt
    cs :: playingCycleSends baseTimeStamp cs pkts

/-- The reassembly-slot invariant of the spec's data model:
`bodyIndex + bodyRemain = MsgLength`, the filled body prefix is exactly
`bodyIndex` bytes, and a complete slot has no remainder. -/
def slotInv (s : ChunkStream) : Prop :=
  s.bodyIndex + s.bodyRemain = s.MsgLength ∧ s.ChunkBody.length = s.bodyIndex ∧
    (s.gotBodyFull = true → s.bodyRemain = 0)

/-- Every slot reachable in the connection's csid map satisfies `slotInv`. -/
def connInv (c : Conn) : Prop :=
  ∀ k s, findSlot c.chunks k = some s → slotInv s

/-- A fresh server connection (chunk sizes and windows from `Server`,
rtmp.go:14-34). -/
def freshConn : Conn :=
  { chunks := []
    localChunksize := 128
    remoteChunkSize := 128
    remoteWindowAckSize := 250000
    bytesRecv := 0
    bytesRecvReset := 0
    ackSeqNumber := 0 }

/-- Concrete wire input: one fmt=0 chunk on csid 4, timestamp 100,
length 5, type 8 (audio), stream id 1, five body bytes. -/
def wireOneChunk : List Nat :=
  [4, 0, 0, 100, 0, 0, 5, 8, 1, 0, 0, 0] ++ [10, 11, 12, 13, 14]

/-- The slot produced by decoding `wireOneChunk`. -/
def slotOneChunk : ChunkStream :=
  { Fmt := 0
    Csid := 4
    TimeStamp := 100
    MsgLength := 5
    MsgTypeID := 8
    MsgStreamID := 1
    ExtendedTimeStamp := 100
    msgHdrSize := 11
    timeExtended := false
    gotBodyFull := true
    bodyIndex := 5
    bodyRemain := 0
    ChunkBody := [10, 11, 12, 13, 14] }

/-- The connection state after decoding `wireOneChunk` on `freshConn`. -/
def connOneChunk : Conn :=
  { freshConn with
      chunks := [(4, slotOneChunk)]
      bytesRecv := 5
      ackSeqNumber := 5 }

/-- A slot mid-message (spec §8 scenario 2): extended timestamp
`0x01000000`, 256 of 300 body bytes already filled, 44 to go. -/
def contSlot : ChunkStream :=
  { Fmt := 0
    Csid := 4
    TimeStamp := 16777216
    MsgLength := 300
    MsgTypeID := 8
    MsgStreamID := 1
    ExtendedTimeStamp := 16777215
    msgHdrSize := 0
    timeExtended := true
    gotBodyFull := false
    bodyIndex := 256
    bodyRemain := 44
    ChunkBody := List.replicate 256 7 }

/-- Forty filler body bytes following the 4 peeked ones. -/
def contRest : List Nat := List.replicate 40 9

/-- A metadata packet (all other tags false). -/
def metaPkt : Packet :=
  { IsAudio := false, IsVideo := false, IsMetaData := true, hasVideoHeader := false,
    IsSeq := false, IsKeyFrame := false, StreamID := 1, TimeStamp := 0, Data := [] }

/-- An audio packet whose publisher timestamp is 100. -/
def pkt100 : Packet :=
  { IsAudio := true, IsVideo := false, IsMetaData := false, hasVideoHeader := false,
    IsSeq := false, IsKeyFrame := false, StreamID := 1, TimeStamp := 100, Data := [] }

/-- An audio packet whose publisher timestamp is 200. -/
def pkt200 : Packet :=
  { IsAudio := true, IsVideo := false, IsMetaData := false, hasVideoHeader := false,
    IsSeq := false, IsKeyFrame := false, StreamID := 1, TimeStamp := 200, Data := [] }

/-- A fmt=0 header for a message with `TimeStamp = 0x01000000 > 0xffffff`
(csid 4, length 10, type 8, stream id 1). -/
def hdrExtTs : ChunkStream :=
  { newChunkStream with
      Fmt := 0
      Csid := 4
      TimeStamp := 16777216
      MsgLength := 10
      MsgTypeID := 8
      MsgStreamID := 1 }

/-- A received SetChunkSize message whose body carries `0xFFFFFFFF`. -/
def setChunkSizeHuge : ChunkStream :=
  { newChunkStream with
      Csid := 2
      MsgTypeID := 1
      MsgLength := 4
      gotBodyFull := true
      bodyIndex := 4
      ChunkBody := [255, 255, 255, 255] }

/-- The state of `freshConn` after `onReadChunkStreamSucc` on `setChunkSizeHuge`. -/
def connAfterHuge : Conn :=
  { freshConn with remoteChunkSize := 4294967295, bytesRecv := 4, ackSeqNumber := 4 }

/-- A connection one byte short of the acknowledgement window. -/
def connNearWindow : Conn := { freshConn with ackSeqNumber := 249999 }

/-- The Acknowledgement chunk carrying 250000 (= big-endian bytes
`[0, 3, 208, 144]`). -/
def ackChunk250000 : ChunkStream :=
  { newChunkStream with
      Fmt := 0
      Csid := 2
      MsgTypeID := 3
      MsgStreamID := 0
      MsgLength := 4
      ChunkBody := [0, 3, 208, 144] }

/-- A connection whose `bytesRecv` is two below the 32-bit maximum. -/
def connNearWrap : Conn := { freshConn with bytesRecv := 4294967294 }

/-- An audio message with an empty body (`MsgLength = 0`). -/
def emptyMsg : ChunkStream := { newChunkStream with MsgTypeID := 8 }

end RTMP

namespace RTMP

/-- Round-trip of the byte codec, shared auxiliary fact. -/
theorem byteSliceAsUint_writeUintBytes
    (n : Nat) (e : Bool) (v : Nat) (h1 : 1 ≤ n) (h2 : n ≤ 4) (hv : v < 2 ^ (8 * n)) :
    byteSliceAsUint (writeUintBytes v n e) e = v := by
  interval_cases n <;> cases e <;>
    simp [byteSliceAsUint, writeUintBytes, byteSliceAsUintAux, List.range_succ, U32] at hv ⊢ <;>
    omega

/-- C9: round trip of the integer byte codec: for `n` in 1..4, either
endianness, and any `v < 2^(8n)`, decoding the `n`-byte buffer written by
`writeUint` with `byteSliceAsUint` returns `v`. -/
theorem writeUint_byteSliceAsUint_roundtrip
    (n : Nat) (e : Bool) (v : Nat) (h1 : 1 ≤ n) (h2 : n ≤ 4) (hv : v < 2 ^ (8 * n)) :
    byteSliceAsUint (writeUintBytes v n e) e = v :=
  byteSliceAsUint_writeUintBytes n e v h1 h2 hv

/-- Witness for C9 at `n = 3`, big-endian, `v = 0x123456`. -/
theorem writeUint_byteSliceAsUint_roundtrip_witness :
    byteSliceAsUint (writeUintBytes 1193046 3 true) true = 1193046 :=
  writeUint_byteSliceAsUint_roundtrip 3 true 1193046 (by decide) (by decide) (by decide)

set_option maxHeartbeats 2000000

/-- Every successful message-header read leaves the slot invariant intact:
the fmt 0/1/2 and fmt 3 message-restart branches re-establish it outright,
and the mid-message continuation branch does not touch the body fields. -/
theorem readChunkMessageHeader_slotInv (s : ChunkStream) (fmt : Nat) (st st1 : List Nat)
    (s1 : ChunkStream) (hinv : slotInv s)
    (h : readChunkMessageHeader s fmt st = some (s1, st1)) : slotInv s1 := by
  obtain ⟨h1, h2, h3⟩ := hinv
  simp only [readChunkMessageHeader] at h
  repeat' split at h
  all_goals simp only [Option.some.injEq, Prod.mk.injEq, reduceCtorEq] at h
  all_goals obtain ⟨rfl, rfl⟩ := h
  all_goals refine ⟨?_, ?_, ?_⟩ <;> first | exact h1 | exact h2 | exact h3 | simp

/-- Every successful body read preserves the slot invariant, never changes
`MsgLength`, and on completion the filled body is exactly `MsgLength`
bytes. -/
theorem readChunkMessageBody_slotInv (cz : Nat) (s s1 : ChunkStream) (st st1 : List Nat)
    (hinv : slotInv s) (h : readChunkMessageBody cz s st = some (s1, st1)) :
    slotInv s1 ∧ s1.MsgLength = s.MsgLength ∧
      (s1.gotBodyFull = true →
        s1.bodyIndex = s1.MsgLength ∧ s1.ChunkBody.length = s1.MsgLength) := by
  obtain ⟨h1, h2, h3⟩ := hinv
  simp only [readChunkMessageBody] at h
  repeat' split at h
  all_goals simp only [Option.some.injEq, Prod.mk.injEq, reduceCtorEq] at h
  all_goals obtain ⟨rfl, rfl⟩ := h
  all_goals refine ⟨⟨?_, ?_, ?_⟩, ?_, ?_⟩ <;>
    simp only [List.length_append, List.length_take, List.length_nil] <;>
    first
      | rfl
      | omega
      | (intro hgf
         first
           | omega
           | (have h0 := h3 hgf
              omega)
           | exact ⟨by omega, by omega⟩
           | (have h0 := h3 hgf
              exact ⟨by omega, by omega⟩))

/-- A fmt=3 mid-message continuation header never changes `MsgLength`:
the length a completed message reports is the one stated at the chunk that
started the message. -/
theorem readChunkMessageHeader_continuation_msgLength (s : ChunkStream) (st st1 : List Nat)
    (s1 : ChunkStream) (hrem : s.bodyRemain ≠ 0)
    (h : readChunkMessageHeader s 3 st = some (s1, st1)) :
    s1.MsgLength = s.MsgLength ∧ s1.bodyIndex = s.bodyIndex ∧
      s1.ChunkBody = s.ChunkBody ∧ s1.bodyRemain = s.bodyRemain := by
  simp only [readChunkMessageHeader] at h
  repeat' split at h
  all_goals simp only [Option.some.injEq, Prod.mk.injEq, reduceCtorEq] at h
  all_goals try (obtain ⟨rfl, rfl⟩ := h)
  all_goals first
    | exact ⟨rfl, rfl, rfl, rfl⟩
    | omega
    | simp_all

/-- Fact: `onReadChunkStreamSucc` only rewrites scalar connection fields; the
csid map is untouched. -/
theorem onReadChunkStreamSucc_chunks (c c1 : Conn) (cs : ChunkStream)
    (sent : Option ChunkStream)
    (h : onReadChunkStreamSucc c cs = some (c1, sent)) : c1.chunks = c.chunks := by
  simp only [onReadChunkStreamSucc, ack] at h
  repeat' split at h
  all_goals simp only [Option.some.injEq, Prod.mk.injEq, reduceCtorEq] at h
  all_goals obtain ⟨rfl, rfl⟩ := h
  all_goals rfl

/-- Fact: `readChunkStream` hands upstream only complete messages whose filled
body is exactly `MsgLength` bytes, and keeps every slot of the csid map
satisfying the invariant. -/
theorem readChunkStream_complete (fuel : Nat) (c : Conn) (st : List Nat)
    (r : ChunkStream) (c1 : Conn) (st1 : List Nat) (sent : Option ChunkStream)
    (hc : connInv c) (h : readChunkStream fuel c st = some (r, c1, st1, sent)) :
    r.gotBodyFull = true ∧ r.bodyIndex = r.MsgLength ∧
      r.ChunkBody.length = r.MsgLength ∧ connInv c1 := by
  induction fuel generalizing c st with
  | zero => simp [readChunkStream] at h
  | succ fuel ih =>
    rw [readChunkStream] at h
    split at h
    · simp at h
    · rename_i bh st2 hbh
      split at h
      · simp at h
      · rename_i cs2 st3 hhdr
        split at h
        · simp at h
        · rename_i cs3 st4 hbody
          have hslot : slotInv (lookupSlot c bh) := by
            unfold lookupSlot
            cases hfind : findSlot c.chunks bh.Csid with
            | some s0 => exact hc bh.Csid s0 hfind
            | none => exact ⟨by simp [newChunkStream], by simp [newChunkStream],
                by simp [newChunkStream]⟩
          have hinv2 : slotInv cs2 := readChunkMessageHeader_slotInv _ _ _ _ _ hslot hhdr
          have hinv3 := readChunkMessageBody_slotInv _ _ _ _ _ hinv2 hbody
          have hcnew : connInv { c with chunks := (bh.Csid, cs3) :: c.chunks } := by
            intro k s hfind
            simp only [findSlot] at hfind
            split at hfind
            · simp only [Option.some.injEq] at hfind
              exact hfind ▸ hinv3.1
            · exact hc k s hfind
          split at h
          · rename_i hfull
            simp only [] at h
            split at h
            · simp at h
            · rename_i c4 sent4 hsucc
              simp only [Option.some.injEq, Prod.mk.injEq] at h
              obtain ⟨rfl, rfl, rfl, rfl⟩ := h
              refine ⟨hfull, (hinv3.2.2 hfull).1, (hinv3.2.2 hfull).2, ?_⟩
              intro k s hfind
              rw [onReadChunkStreamSucc_chunks _ _ _ _ hsucc] at hfind
              exact hcnew k s hfind
          · exact ih _ _ hcnew h

/-- C1: on each chunk-stream-id, the reassembly invariant
`bodyIndex + bodyRemain = MsgLength` (with the filled body prefix exactly
`bodyIndex` bytes long) holds for the fresh slot and is preserved by every
message-header read and every body read; a fmt=3 continuation of an
in-flight message never alters `MsgLength`, so the length is the one stated
at the message's first chunk; and every message `readChunkStream` hands
upstream (returned with `gotBodyFull` set) has accumulated exactly
`MsgLength` body bytes. -/
theorem reassembly_invariant_and_completeness :
    slotInv newChunkStream ∧
    (∀ s fmt st s1 st1, slotInv s →
      readChunkMessageHeader s fmt st = some (s1, st1) → slotInv s1) ∧
    (∀ cz s st s1 st1, slotInv s →
      readChunkMessageBody cz s st = some (s1, st1) →
        slotInv s1 ∧ s1.MsgLength = s.MsgLength ∧
          (s1.gotBodyFull = true →
            s1.bodyIndex = s1.MsgLength ∧ s1.ChunkBody.length = s1.MsgLength)) ∧
    (∀ s st s1 st1, s.bodyRemain ≠ 0 →
      readChunkMessageHeader s 3 st = some (s1, st1) → s1.MsgLength = s.MsgLength) ∧
    (∀ fuel c st r c1 st1 sent, connInv c →
      readChunkStream fuel c st = some (r, c1, st1, sent) →
        r.gotBodyFull = true ∧ r.bodyIndex = r.MsgLength ∧
          r.ChunkBody.length = r.MsgLength ∧ connInv c1) :=
  ⟨by simp [slotInv, newChunkStream],
   fun s fmt st s1 st1 hinv h => readChunkMessageHeader_slotInv s fmt st st1 s1 hinv h,
   fun cz s st s1 st1 hinv h => readChunkMessageBody_slotInv cz s s1 st st1 hinv h,
   fun s st s1 st1 hrem h =>
     (readChunkMessageHeader_continuation_msgLength s st st1 s1 hrem h).1,
   fun fuel c st r c1 st1 sent hc h =>
     readChunkStream_complete fuel c st r c1 st1 sent hc h⟩

/-- Witness for C1: decoding one concrete fmt=0 chunk on a fresh
connection returns a complete message of exactly `MsgLength = 5` body
bytes. -/
theorem reassembly_invariant_and_completeness_witness :
    readChunkStream 3 freshConn wireOneChunk = some (slotOneChunk, connOneChunk, [], none) ∧
    slotOneChunk.bodyIndex = slotOneChunk.MsgLength ∧
    slotOneChunk.ChunkBody.length = slotOneChunk.MsgLength :=
  have hc : connInv freshConn := fun k s hfind => by simp [findSlot, freshConn] at hfind
  have h : readChunkStream 3 freshConn wireOneChunk
      = some (slotOneChunk, connOneChunk, [], none) := by decide
  have r := reassembly_invariant_and_completeness.2.2.2.2
    3 freshConn wireOneChunk slotOneChunk connOneChunk [] none hc h
  ⟨h, r.2.1, r.2.2.1⟩

/-- C2: for a fmt=3 chunk arriving while the slot is mid-message
(`bodyRemain > 0`) and `timeExtended` is set, the decoder peeks the next
4 bytes and discards them if and only if their big-endian value equals the
slot's current `TimeStamp`; otherwise they are left in the stream, where
the immediately following body read copies them (at the head of its
`min(bodyRemain, remoteChunkSize)` bytes) into the message body. -/
theorem fmt3_extended_timestamp_peek (cz : Nat) (s : ChunkStream)
    (b0 b1 b2 b3 : Nat) (rest : List Nat)
    (hrem : s.bodyRemain ≠ 0) (hext : s.timeExtended = true) :
    readChunkMessageHeader s 3 (b0 :: b1 :: b2 :: b3 :: rest)
      = some ({ s with msgHdrSize := 0 },
          if byteSliceAsUint [b0, b1, b2, b3] true = s.TimeStamp then rest
          else b0 :: b1 :: b2 :: b3 :: rest) ∧
    (byteSliceAsUint [b0, b1, b2, b3] true ≠ s.TimeStamp →
      ∀ s2 st2, readChunkMessageBody cz { s with msgHdrSize := 0 }
          (b0 :: b1 :: b2 :: b3 :: rest) = some (s2, st2) →
        s2.ChunkBody = s.ChunkBody
          ++ (b0 :: b1 :: b2 :: b3 :: rest).take (min s.bodyRemain cz)) := by
  constructor
  · by_cases hv : byteSliceAsUint [b0, b1, b2, b3] true = s.TimeStamp <;>
      simp [readChunkMessageHeader, hext, hrem, hv]
  · intro _ s2 st2 hb
    simp only [readChunkMessageBody] at hb
    repeat' split at hb
    all_goals simp only [Option.some.injEq, Prod.mk.injEq, reduceCtorEq] at hb
    all_goals obtain ⟨rfl, rfl⟩ := hb
    all_goals first
      | (have hm : min s.bodyRemain cz = cz := by omega
         simp [hm]
         done)
      | (have hm : min s.bodyRemain cz = s.bodyRemain := by omega
         simp [hm]
         done)
      | simp_all

/-- Witness for C2 at spec §8 scenario 2: the peeked bytes `0xDEADBEEF`
differ from the slot timestamp `0x01000000`, so they are not consumed. -/
theorem fmt3_extended_timestamp_peek_witness :
    contSlot.bodyRemain ≠ 0 ∧ contSlot.timeExtended = true ∧
    readChunkMessageHeader contSlot 3 (222 :: 173 :: 190 :: 239 :: contRest)
      = some ({ contSlot with msgHdrSize := 0 },
          if byteSliceAsUint [222, 173, 190, 239] true = contSlot.TimeStamp then contRest
          else 222 :: 173 :: 190 :: 239 :: contRest) :=
  ⟨by decide, rfl,
   (fmt3_extended_timestamp_peek 128 contSlot 222 173 190 239 contRest (by decide) rfl).1⟩

/-- C3 counterexample: trim mode at queue size 85 (one iteration) dequeues
the metadata packet and, the trim switch handling only audio and video,
never requeues it — the queue comes back empty. -/
theorem trim_drops_metadata_counterexample :
    metaPkt.IsMetaData = true ∧ dropAvPkt 85 [metaPkt] = some [] := by decide

/-- C3 (amended): a trim-mode iteration that dequeues a packet that is
neither audio nor video — a metadata packet — leaves it out of the queue:
metadata is discarded by trim mode, not requeued. -/
theorem trim_discards_metadata (size : Nat) (mp : Packet) (q : List Packet)
    (ha : mp.IsAudio = false) (hv : mp.IsVideo = false) :
    trimStep size (mp :: q) = some q := by
  simp [trimStep, ha, hv]

/-- Witness for the amended C3 at a concrete metadata packet. -/
theorem trim_discards_metadata_witness :
    metaPkt.IsAudio = false ∧ metaPkt.IsVideo = false ∧
    trimStep 1024 [metaPkt] = some [] :=
  ⟨rfl, rfl, trim_discards_metadata 1024 metaPkt [] rfl rfl⟩

/-- C4 counterexample: a fresh subscriber sending packets with publisher
timestamps 100 and 200 delivers timestamps `[0, 0]`, not
`[0, 200 - 100] = [0, 100]` as the claim requires. -/
theorem playingCycle_timestamp_counterexample :
    (playingCycleSends 0 newChunkStream [pkt100, pkt200]).map (fun c => c.TimeStamp)
      = [0, 0] ∧
    pkt200.TimeStamp - pkt100.TimeStamp = 100 ∧ (0 : Nat) ≠ 100 := by decide

/-- C4 (amended): the timestamps `playingCycle` delivers never consult the
packets' publisher timestamps — they depend only on how many packets have
been sent (each send adds `baseTimeStamp` to the reused chunk's
timestamp); in particular a fresh subscriber (`baseTimeStamp = 0`, zeroed
chunk) delivers timestamp 0 on the first and on every packet. -/
theorem playingCycle_timestamps_count_only :
    (∀ base (cs cs2 : ChunkStream) (ps qs : List Packet), cs.TimeStamp = cs2.TimeStamp →
      ps.length = qs.length →
      (playingCycleSends base cs ps).map (fun c => c.TimeStamp)
        = (playingCycleSends base cs2 qs).map (fun c => c.TimeStamp)) ∧
    (∀ ps : List Packet,
      (playingCycleSends 0 newChunkStream ps).map (fun c => c.TimeStamp)
        = List.replicate ps.length 0) := by
  constructor
  · intro base cs cs2 ps
    induction ps generalizing cs cs2 with
    | nil =>
      intro qs _ h
      cases qs with
      | nil => rfl
      | cons q qs => simp at h
    | cons p ps ih =>
      intro qs hts h
      cases qs with
      | nil => simp at h
      | cons q qs =>
        have hts2 : (playingCycleStep base cs p).TimeStamp
            = (playingCycleStep base cs2 q).TimeStamp := by
          simp [playingCycleStep, hts]
        simp only [playingCycleSends, List.map_cons]
        rw [hts2, ih _ _ _ hts2 (by simpa using h)]
  · have aux : ∀ (ps : List Packet) (cs : ChunkStream), cs.TimeStamp = 0 →
        (playingCycleSends 0 cs ps).map (fun c => c.TimeStamp)
          = List.replicate ps.length 0 := by
      intro ps
      induction ps with
      | nil => intro cs _; rfl
      | cons p ps ih =>
        intro cs h
        have hstep : (playingCycleStep 0 cs p).TimeStamp = 0 := by
          simp [playingCycleStep, h, U32]
        simp only [playingCycleSends, List.map_cons, List.length_cons,
          List.replicate_succ, hstep]
        rw [ih _ hstep]
    intro ps
    exact aux ps newChunkStream rfl

/-- Witness for the amended C4: one packet with publisher timestamp 100
and one with 200 produce the same delivered timestamps. -/
theorem playingCycle_timestamps_count_only_witness :
    newChunkStream.TimeStamp = newChunkStream.TimeStamp ∧
    ([pkt100] : List Packet).length = ([pkt200] : List Packet).length ∧
    (playingCycleSends 0 newChunkStream [pkt100]).map (fun c => c.TimeStamp)
      = (playingCycleSends 0 newChunkStream [pkt200]).map (fun c => c.TimeStamp) :=
  ⟨rfl, rfl,
   playingCycle_timestamps_count_only.1 0 newChunkStream newChunkStream
     [pkt100] [pkt200] rfl rfl⟩

/-- C5, code evaluated at the failing input: a fmt=0 header whose message
timestamp `0x01000000` exceeds `0xffffff` is emitted as 12 bytes — basic
header `0x04`, 3-byte field `0xffffff`, length, type id and stream id —
with NO 4-byte extended timestamp appended: the guard at the END label
tests the already-clamped local `ts`, which can never exceed `0xffffff`
for fmt 0/1/2. -/
theorem writeHeader_drops_extended_timestamp :
    writeHeader hdrExtTs = ([4, 255, 255, 255, 0, 0, 10, 8, 1, 0, 0, 0], true) ∧
    (writeHeader hdrExtTs).1.length = 12 := by decide

/-- C6 counterexample: a SetChunkSize body of `0xFFFFFFFF` makes
`remoteChunkSize` equal to 4294967295, far outside `[1, 16777215]` — no
clamping happens. -/
theorem setChunkSize_no_clamp_counterexample :
    onReadChunkStreamSucc freshConn setChunkSizeHuge = some (connAfterHuge, none) ∧
    connAfterHuge.remoteChunkSize = 4294967295 ∧
    ¬connAfterHuge.remoteChunkSize ≤ 16777215 := by decide

/-- C6 (amended): on a SetChunkSize message, `remoteChunkSize` becomes the
raw big-endian 32-bit value of the body's first 4 bytes, with no range
check of any kind. -/
theorem setChunkSize_raw_update (c : Conn) (cs : ChunkStream) (c2 : Conn)
    (sent : Option ChunkStream) (ht : cs.MsgTypeID = MsgSetChunkSize)
    (h : onReadChunkStreamSucc c cs = some (c2, sent)) :
    c2.remoteChunkSize = byteSliceAsUint (cs.ChunkBody.take 4) true := by
  simp only [onReadChunkStreamSucc, ack] at h
  repeat' split at h
  all_goals simp only [Option.some.injEq, Prod.mk.injEq, reduceCtorEq] at h
  all_goals try (obtain ⟨rfl, rfl⟩ := h)
  all_goals first | rfl | omega | simp_all

/-- Witness for the amended C6 at the concrete out-of-range body. -/
theorem setChunkSize_raw_update_witness :
    setChunkSizeHuge.MsgTypeID = MsgSetChunkSize ∧
    connAfterHuge.remoteChunkSize
      = byteSliceAsUint (setChunkSizeHuge.ChunkBody.take 4) true :=
  ⟨rfl, setChunkSize_raw_update freshConn setChunkSizeHuge connAfterHuge none rfl (by decide)⟩

/-- C7: after each reassembled message of length `size`, `size` is added
to the 32-bit `ackSeqNumber`; an Acknowledgement chunk is emitted iff the
updated value reaches `remoteWindowAckSize`, it carries exactly that value
in its 4-byte big-endian body, and the counter then resets to 0; otherwise
the counter keeps the accumulated value. -/
theorem ack_window_emission (c : Conn) (size : Nat) :
    ((ack c size).2 = none ↔ (c.ackSeqNumber + size) % U32 < c.remoteWindowAckSize) ∧
    ((ack c size).1.ackSeqNumber =
      if c.remoteWindowAckSize ≤ (c.ackSeqNumber + size) % U32 then 0
      else (c.ackSeqNumber + size) % U32) ∧
    (∀ cs, (ack c size).2 = some cs →
      cs.MsgTypeID = MsgAcknowledgement ∧ cs.MsgLength = 4 ∧
        cs.ChunkBody = putU32BE ((c.ackSeqNumber + size) % U32) ∧
        byteSliceAsUint cs.ChunkBody true = (c.ackSeqNumber + size) % U32) := by
  have hlt : (c.ackSeqNumber + size) % U32 < 2 ^ (8 * 4) :=
    Nat.mod_lt _ (by norm_num [U32])
  by_cases hcond : c.remoteWindowAckSize ≤ (c.ackSeqNumber + size) % U32
  · refine ⟨?_, ?_, ?_⟩
    · simp only [ack]
      rw [if_pos hcond]
      simp
      omega
    · simp only [ack]
      rw [if_pos hcond]
      simp [hcond]
    · intro cs hcs
      simp only [ack] at hcs
      rw [if_pos hcond] at hcs
      simp only [Option.some.injEq] at hcs
      subst hcs
      exact ⟨rfl, rfl, rfl,
        byteSliceAsUint_writeUintBytes 4 true _ (by norm_num) (by norm_num) hlt⟩
  · refine ⟨?_, ?_, ?_⟩
    · simp only [ack]
      rw [if_neg hcond]
      simp
      omega
    · simp only [ack]
      rw [if_neg hcond]
      simp [hcond]
    · intro cs hcs
      simp only [ack] at hcs
      rw [if_neg hcond] at hcs
      simp at hcs

/-- Witness for C7: one more byte than the window triggers exactly one
Acknowledgement carrying 250000, and the counter resets. -/
theorem ack_window_emission_witness :
    (ack connNearWindow 1).2 = some ackChunk250000 ∧
    ackChunk250000.MsgTypeID = MsgAcknowledgement ∧ ackChunk250000.MsgLength = 4 ∧
    ackChunk250000.ChunkBody = putU32BE ((connNearWindow.ackSeqNumber + 1) % U32) ∧
    byteSliceAsUint ackChunk250000.ChunkBody true
      = (connNearWindow.ackSeqNumber + 1) % U32 :=
  have hsome : (ack connNearWindow 1).2 = some ackChunk250000 := by decide
  ⟨hsome, (ack_window_emission connNearWindow 1).2.2 ackChunk250000 hsome⟩

/-- C8 counterexample: with `bytesRecv = 2^32 - 2`, adding 3 carries the
32-bit sum past `2^32 - 1`, yet the code leaves `bytesRecv = 1` and does
not touch the wrap counter: the `>= 2^32-1` guard on a `uint32` only fires
when the wrapped sum lands exactly on `2^32 - 1`. -/
theorem bytesRecv_wrap_counterexample :
    U32 - 1 < connNearWrap.bytesRecv + 3 ∧
    (ack connNearWrap 3).1.bytesRecv = 1 ∧
    (ack connNearWrap 3).1.bytesRecvReset = connNearWrap.bytesRecvReset ∧
    ¬((ack connNearWrap 3).1.bytesRecv = 0 ∧
      (ack connNearWrap 3).1.bytesRecvReset = connNearWrap.bytesRecvReset + 1) := by
  decide

/-- C8 (amended): `bytesRecv` accumulates message lengths modulo `2^32`;
it is reset to 0 — and the wrap counter incremented — exactly when the
wrapped sum equals `2^32 - 1` (for a 32-bit value, `>= 2^32 - 1` is
equality); wrap-arounds that skip over `2^32 - 1` leave the counter
unchanged. -/
theorem bytesRecv_wrap (c : Conn) (size : Nat) :
    (ack c size).1.bytesRecv
        = (if (c.bytesRecv + size) % U32 = U32 - 1 then 0
           else (c.bytesRecv + size) % U32) ∧
    (ack c size).1.bytesRecvReset
        = (if (c.bytesRecv + size) % U32 = U32 - 1 then c.bytesRecvReset + 1
           else c.bytesRecvReset) := by
  have hlt : (c.bytesRecv + size) % U32 < U32 := Nat.mod_lt _ (by norm_num [U32])
  simp only [ack]
  split_ifs <;> constructor <;> simp <;> omega

/-- C10: `writeChunStream` on a message with `MsgLength = 0` succeeds and
emits nothing at all — the loop's `totalLen == MsgLength` check fires on
the first iteration before any header is written. -/
theorem writeChunStream_empty (cz : Nat) (cs : ChunkStream)
    (hcz : 0 < cz) (hlen : cs.MsgLength = 0) : writeChunStream cz cs = some [] := by
  have h0 : (reassignCsid cs).MsgLength = 0 := by
    simp only [reassignCsid]
    split_ifs <;> simpa using hlen
  simp [writeChunStream, writeChunStreamLoop, h0]

/-- Witness for C10 at a concrete empty audio message. -/
theorem writeChunStream_empty_witness :
    (0 : Nat) < 128 ∧ emptyMsg.MsgLength = 0 ∧ writeChunStream 128 emptyMsg = some [] :=
  ⟨by decide, rfl, writeChunStream_empty 128 emptyMsg (by decide) rfl⟩

end RTMP
